import Mathlib

/-!
Verification development for `convert-latest-missing-lwn-weekly-articles-to-epub.py`.

The script is a linear pipeline: discover LWN weekly issues (current page and
archive page), map each publication date to a local EPUB file path, diff the
discovered mapping against the files already on disk, and convert each missing
issue under a rate limiter.

This file gives a shallow embedding of that pipeline:
  * Python `str` values are modelled as `List Char` (`Str`);
  * `datetime.date` is modelled as a year/month/day record with the proleptic
    Gregorian calendar, and `date.strftime('%y%W')` is implemented directly;
  * Python `dict` values (which preserve insertion order and overwrite values
    in place on key reassignment) are modelled as ordered association lists;
  * the concrete regular expressions used by the script are implemented as
    functions on `Str` following the greedy/backtracking semantics of
    `re.match` for those specific patterns;
  * external libraries (`requests`, BeautifulSoup, `dateutil.parser.parse`,
    the filesystem, `subprocess`) are modelled as oracle data carried in a
    `World` record: fetched pages arrive pre-parsed into their tag structure,
    `parse_date` is an arbitrary function `Str → Option PyDate`, and each
    conversion subprocess invocation has an arbitrary `Except` outcome;
  * the `ratelimit` decorators (`sleep_and_retry`, `limits`) are modelled as a
    step function on the limiter state with an explicit integer clock.
-/

set_option maxRecDepth 4000

/-- Python strings are modelled as lists of characters. -/
abbrev Str := List Char

/-- Literal conversion from a Lean string to the `Str` model. -/
def s2l (s : String) : Str := s.data

/-! ## Dates and `strftime('%y%W')`

`to_epub_file_path` (source lines 152-159) formats the publication date with
`date.strftime('%y%W')`: the two-digit year (`%y`, year mod 100, zero padded)
followed by the two-digit week number (`%W`, Monday as the first day of the
week, days before the first Monday of the year are week 0). -/

/-- A `datetime.date`: proleptic Gregorian year, month, day. -/
structure PyDate where
  year : Nat
  month : Nat
  day : Nat
deriving DecidableEq

/-- Gregorian leap-year test. -/
def isLeap (y : Nat) : Bool :=
  y % 4 = 0 && (y % 100 ≠ 0 || y % 400 = 0)

/-- Number of days in a month of a given year. -/
def daysInMonth (y m : Nat) : Nat :=
  match m with
  | 2 => if isLeap y then 29 else 28
  | 4 | 6 | 9 | 11 => 30
  | _ => 31

/-- Days in the year strictly before the first day of month `m`. -/
def daysBeforeMonth (y m : Nat) : Nat :=
  (match m with
   | 1 => 0 | 2 => 31 | 3 => 59 | 4 => 90 | 5 => 120 | 6 => 151
   | 7 => 181 | 8 => 212 | 9 => 243 | 10 => 273 | 11 => 304 | _ => 334)
  + (if 3 ≤ m && isLeap y then 1 else 0)

/-- One-based day of the year. -/
def dayOfYear (d : PyDate) : Nat :=
  daysBeforeMonth d.year d.month + d.day

/-- The range of dates representable by `datetime.date`. -/
def ValidDate (d : PyDate) : Prop :=
  1 ≤ d.year ∧ d.year ≤ 9999 ∧ 1 ≤ d.month ∧ d.month ≤ 12 ∧
  1 ≤ d.day ∧ d.day ≤ daysInMonth d.year d.month

instance (d : PyDate) : Decidable (ValidDate d) := by
  unfold ValidDate; infer_instance

/-- Proleptic Gregorian ordinal, with `0001-01-01` as day 1
(CPython `date.toordinal`). -/
def toOrdinal (d : PyDate) : Nat :=
  365 * (d.year - 1) + (d.year - 1) / 4 - (d.year - 1) / 100 + (d.year - 1) / 400
    + dayOfYear d

/-- Day of the week with Monday = 0 (Python `date.weekday`);
ordinal 1 (`0001-01-01`) is a Monday. -/
def weekdayMon (d : PyDate) : Nat :=
  (toOrdinal d + 6) % 7

/-- The `%W` week number: Monday is the first day of the week, and all days
before the first Monday of the year belong to week 0. -/
def weekW (d : PyDate) : Nat :=
  ((dayOfYear d - 1) + 7 - weekdayMon d) / 7

/-- The decimal digit character for `n % 10`. -/
def decimalDigit (n : Nat) : Char := Char.ofNat (48 + n % 10)

/-- Two-digit zero-padded decimal rendering (for values below 100). -/
def pad2 (n : Nat) : Str := [decimalDigit (n / 10), decimalDigit n]

/-- `date.strftime('%y%W')`: two-digit year followed by two-digit `%W` week. -/
def strftime_yW (d : PyDate) : Str :=
  pad2 (d.year % 100) ++ pad2 (weekW d)

/-! ## Path computation

`to_epub_file_path` joins the EPUB directory with
`args.epub_file_format.format(weekno=...)`. The format string is modelled as
its parsed form: a list of literal pieces and occurrences of the `weekno`
replacement field. -/

/-- One piece of the `--epub-file-format` template. -/
inductive Seg where
  | lit (s : Str)
  | weekno
deriving DecidableEq

/-- `str.format` for a template over the single field `weekno`. -/
def renderTemplate (w : Str) : List Seg → Str
  | [] => []
  | Seg.lit l :: rest => l ++ renderTemplate w rest
  | Seg.weekno :: rest => w ++ renderTemplate w rest

/-- `os.path.join` for two POSIX path components. -/
def osPathJoin (a b : Str) : Str :=
  if b.head? = some '/' then b
  else if a = [] ∨ a.getLast? = some '/' then a ++ b
  else a ++ '/' :: b

/-- The default `--epub-file-format` template, `lwn.net-` weekno `.epub`. -/
def defaultEpubFileFormat : List Seg :=
  [Seg.lit (s2l "lwn.net-"), Seg.weekno, Seg.lit (s2l ".epub")]

/-- The command-line configuration fields used by the modelled pipeline.
Credential-like options are `Option Str` (`None` when not supplied). -/
structure Config where
  loginUrl : Option Str
  username : Option Str
  password : Option Str
  epubDirectory : Str
  epubFileFormat : List Seg
deriving DecidableEq

/-- `to_epub_file_path` (source lines 152-159): the converted EPUB file path
for a given publication date. -/
def to_epub_file_path (cfg : Config) (d : PyDate) : Str :=
  osPathJoin cfg.epubDirectory (renderTemplate (strftime_yW d) cfg.epubFileFormat)

/-! ## Glob matching and the local inventory scan

`get_converted_epubs` (source lines 195-204) globs for the path template with
`'[0-9]'*4` substituted for the `weekno` field. The matcher below implements
the glob features this pattern can use: literal characters and `[...]`
character classes with ranges (this pattern contains no `*`, `?`, class
negation, or escapes once the template literals are metacharacter free). -/

/-- Splits a character-class body `...]rest` into the class characters and
the remaining pattern. -/
def parseClass : Str → Option (Str × Str)
  | [] => none
  | c :: rest =>
    if c = ']' then some ([], rest)
    else match parseClass rest with
      | some (cls, rem) => some (c :: cls, rem)
      | none => none

/-- Character-class membership, with `a-b` ranges. -/
def classMatch (cls : Str) (c : Char) : Bool :=
  match cls with
  | a :: b :: u :: rest =>
    if b = '-' then (decide (a ≤ c) && decide (c ≤ u)) || classMatch rest c
    else decide (a = c) || classMatch (b :: u :: rest) c
  | a :: rest => decide (a = c) || classMatch rest c
  | [] => false

/-- Glob matching of a whole string against a `*`-free pattern: `?` and
`[...]` classes consume exactly one character, every other character is a
literal (an unmatched `[` counts as a literal, as in `fnmatch`). The glob
pattern of `get_converted_epubs` contains no `*` once the template literals
are metacharacter free, so on that pattern this agrees with `fnmatch`. -/
def globMatch (p : Str) : Str → Bool
  | [] => decide (p = [])
  | d :: s' =>
    match p with
    | [] => false
    | c :: ps =>
      if c = '?' then globMatch ps s'
      else if c = '[' then
        match parseClass ps with
        | some (cls, rest) => classMatch cls d && globMatch rest s'
        | none => decide (c = d) && globMatch ps s'
      else decide (c = d) && globMatch ps s'

/-- A string free of the glob metacharacters `*`, `?`, `[`. -/
def noMetaB (s : Str) : Bool :=
  s.all (fun c => !(decide (c = '*') || decide (c = '?') || decide (c = '[')))

/-- The glob pattern used by `get_converted_epubs`: the path template with
`'[0-9]'*4` substituted for the `weekno` field. -/
def convertedGlobPattern (cfg : Config) : Str :=
  osPathJoin cfg.epubDirectory
    (renderTemplate (s2l "[0-9][0-9][0-9][0-9]") cfg.epubFileFormat)

/-- `get_converted_epubs` (source lines 195-204): the existing files that the
glob pattern matches. The filesystem contents are supplied as `files`. -/
def get_converted_epubs (cfg : Config) (files : List Str) : List Str :=
  files.filter (fun f => globMatch (convertedGlobPattern cfg) f)

/-! ## The concrete regular expressions

The script uses `re.match` with four fixed patterns. Each is implemented
below with the greedy/backtracking semantics of that pattern. -/

/-- Tests whether `re.match(r'.* +for +...', s)` can place the mandatory
single space of ` +` at index `p - 1` with `for` at `p` and at least one
space after it; the greedy `.*` selects the largest such `p`. -/
def forMatchAt (s : Str) (p : Nat) : Bool :=
  decide (1 ≤ p) && decide (s[p - 1]? = some ' ') &&
  decide (s[p]? = some 'f') && decide (s[p + 1]? = some 'o') &&
  decide (s[p + 2]? = some 'r') && decide (s[p + 3]? = some ' ')

/-- Group 1 of `re.match(r'.* +for +(.*) *', s)` (archive link text,
source line 185): everything after the space run following the last
space-delimited `for`. -/
def regexForGroup (s : Str) : Option Str :=
  match ((List.range s.length).filter (fun p => forMatchAt s p)).getLast? with
  | none => none
  | some p => some ((s.drop (p + 3)).dropWhile (fun c => decide (c = ' ')))

/-- Group 1 of `re.match(r'.* +for +(.*) +\[.*]', s)` (current page title,
source line 169): the text between the space run after the last viable
space-delimited `for` and the space before the last viable `[` that is
followed by a `]`. -/
def regexForBracketGroup (s : Str) : Option Str :=
  let okQ : Nat → Nat → Bool := fun p q =>
    decide (p + 5 ≤ q) && decide (s[q]? = some '[') &&
    decide (s[q - 1]? = some ' ') &&
    (List.range s.length).any (fun r => decide (q < r) && decide (s[r]? = some ']'))
  let okP : Nat → Bool := fun p =>
    forMatchAt s p && (List.range s.length).any (okQ p)
  match ((List.range s.length).filter okP).getLast? with
  | none => none
  | some p =>
    match ((List.range s.length).filter (okQ p)).getLast? with
    | none => none
    | some q =>
      let run := ((s.drop (p + 3)).takeWhile (fun c => decide (c = ' '))).length
      let g0 := p + 3 + run
      some ((s.drop g0).take (q - 1 - g0))

/-- Python regex `\w` on ASCII text. -/
def isWordChar (c : Char) : Bool := c.isAlphanum || decide (c = '_')

/-- Group 1 of `re.match(r'.*/Articles/(\w+)/', s)` (current page URL,
source line 172): the word run after the last `/Articles/` occurrence that is
a nonempty word run followed by `/`. -/
def regexUrlArticlesGroup (s : Str) : Option Str :=
  let artAt : Nat → Bool := fun i =>
    decide ((s.drop i).take 10 = s2l "/Articles/") &&
    (let run := (s.drop (i + 10)).takeWhile isWordChar
     !run.isEmpty && decide (s[i + 10 + run.length]? = some '/'))
  match ((List.range s.length).filter artAt).getLast? with
  | none => none
  | some i => some ((s.drop (i + 10)).takeWhile isWordChar)

/-- Group 1 of `re.match(r'/Articles/(\w+)/', href)` (archive link href,
source lines 188-191): anchored at the start of the string. -/
def regexHrefArticlesGroup (h : Str) : Option Str :=
  if h.take 10 = s2l "/Articles/" then
    let run := (h.drop 10).takeWhile isWordChar
    if !run.isEmpty && decide (h[10 + run.length]? = some '/') then some run
    else none
  else none

/-- Python substring containment, `needle in hay`. -/
def strContains (needle hay : Str) : Bool :=
  (List.range (hay.length + 1)).any (fun i => needle.isPrefixOf (hay.drop i))

/-! ## Ordered dictionaries

Python dicts preserve insertion order; assigning to an existing key updates
the value in place, assigning a fresh key appends. -/

/-- `d[k] = v` on an insertion-ordered dict. -/
def dictInsert (k v : Str) : List (Str × Str) → List (Str × Str)
  | [] => [(k, v)]
  | kv :: rest => if kv.1 = k then (k, v) :: rest else kv :: dictInsert k v rest

/-- `d.get(k)` on an insertion-ordered dict. -/
def dictLookup (k : Str) : List (Str × Str) → Option Str
  | [] => none
  | kv :: rest => if kv.1 = k then some kv.2 else dictLookup k rest

/-- `d |= e` / `d.update(e)`: assign every entry of `e` into `d` in order. -/
def dictUpdate (d e : List (Str × Str)) : List (Str × Str) :=
  e.foldl (fun acc kv => dictInsert kv.1 kv.2 acc) d

/-- The value of the last binding of `k` in an entry sequence. -/
def revFind (k : Str) (e : List (Str × Str)) : Option Str :=
  dictLookup k e.reverse

/-! ## Discovery

Fetched pages are modelled pre-parsed: the current page is its `<title>` text
(if any) and final URL; the archive page is its list of `<a>` tags. Failures
of `re.match(...)[1]` (`TypeError` on `None`), `dateutil` parsing
(`ParserError`) and missing tags (`AttributeError`) are modelled in
`Except`. -/

/-- The exception kinds the modelled pipeline can raise. -/
inductive PyError where
  | attributeError
  | typeError
  | parseError
  | calledProcessError
deriving DecidableEq

instance {ε α : Type} [DecidableEq ε] [DecidableEq α] :
    DecidableEq (Except ε α) := fun x y =>
  match x, y with
  | Except.error a, Except.error b =>
    if h : a = b then isTrue (by rw [h])
    else isFalse (fun hh => h (Except.error.inj hh))
  | Except.ok a, Except.ok b =>
    if h : a = b then isTrue (by rw [h])
    else isFalse (fun hh => h (Except.ok.inj hh))
  | Except.error _, Except.ok _ => isFalse (fun hh => Except.noConfusion hh)
  | Except.ok _, Except.error _ => isFalse (fun hh => Except.noConfusion hh)

/-- The current LWN Weekly Edition page, as consumed by the script:
`soup.title` text (if the page has a title) and the response URL. -/
structure CurPage where
  title : Option Str
  url : Str
deriving DecidableEq

/-- One `<a>` tag of the archive page: its text and `href` attribute. -/
structure ALink where
  text : Str
  href : Option Str
deriving DecidableEq

/-- The substring that selects weekly-edition links on the archive page. -/
def weeklyEditionNeedle : Str := s2l "LWN.net Weekly Edition"

/-- `get_current_epub_id_maps` (source lines 162-173): extracts the date from
the page title, and the issue ID from the response URL; any failure raises. -/
def get_current_epub_id_maps (pd : Str → Option PyDate) (cfg : Config)
    (page : CurPage) : Except PyError (List (Str × Str)) :=
  match page.title with
  | none => Except.error PyError.attributeError
  | some t =>
    match regexForBracketGroup t with
    | none => Except.error PyError.typeError
    | some dateStr =>
      match pd dateStr with
      | none => Except.error PyError.parseError
      | some date =>
        match regexUrlArticlesGroup page.url with
        | none => Except.error PyError.typeError
        | some issueId => Except.ok [(to_epub_file_path cfg date, issueId)]

/-- One iteration of the archive-page loop (source lines 183-191): links whose
text does not mention the weekly edition are skipped; otherwise the date and
issue ID are extracted, raising on any malformed part. -/
def processLink (pd : Str → Option PyDate) (cfg : Config) (a : ALink) :
    Except PyError (Option (Str × Str)) :=
  if strContains weeklyEditionNeedle a.text then
    match regexForGroup a.text with
    | none => Except.error PyError.typeError
    | some dateStr =>
      match pd dateStr with
      | none => Except.error PyError.parseError
      | some date =>
        match a.href with
        | none => Except.error PyError.typeError
        | some h =>
          match regexHrefArticlesGroup h with
          | none => Except.error PyError.typeError
          | some issueId => Except.ok (some (to_epub_file_path cfg date, issueId))
  else Except.ok none

/-- The archive-page loop with its accumulating result dict. -/
def archiveFold (pd : Str → Option PyDate) (cfg : Config) :
    List ALink → List (Str × Str) → Except PyError (List (Str × Str))
  | [], acc => Except.ok acc
  | a :: rest, acc =>
    match processLink pd cfg a with
    | Except.error e => Except.error e
    | Except.ok none => archiveFold pd cfg rest acc
    | Except.ok (some kv) => archiveFold pd cfg rest (dictInsert kv.1 kv.2 acc)

/-- `get_archive_epub_id_maps` (source lines 176-192). -/
def get_archive_epub_id_maps (pd : Str → Option PyDate) (cfg : Config)
    (links : List ALink) : Except PyError (List (Str × Str)) :=
  archiveFold pd cfg links []

/-- The archive-page extraction as a flat entry sequence in discovery order,
without the dict collapse; used to state what the loop inserts. -/
def extractEntries (pd : Str → Option PyDate) (cfg : Config) :
    List ALink → Except PyError (List (Str × Str))
  | [] => Except.ok []
  | a :: rest =>
    match processLink pd cfg a with
    | Except.error e => Except.error e
    | Except.ok none => extractEntries pd cfg rest
    | Except.ok (some kv) => (extractEntries pd cfg rest).map (fun es => kv :: es)

/-! ## The diff -/

/-- The dict comprehension of source lines 343-346: the discovered mapping
restricted to paths not already present in the inventory list. -/
def missing_epub_id_maps (m : List (Str × Str)) (conv : List Str) :
    List (Str × Str) :=
  m.filter (fun kv => decide (kv.1 ∉ conv))

/-- Modelled from the spec (section 4.4): set-subtraction of the already-have
set from the discovered mapping, keyed by file path, preserving discovery
order. Stated independently of the source to compare against
`missing_epub_id_maps`. -/
def specOrderedRestriction : List (Str × Str) → List Str → List (Str × Str)
  | [], _ => []
  | kv :: rest, inv =>
    if kv.1 ∈ inv then specOrderedRestriction rest inv
    else kv :: specOrderedRestriction rest inv

/-! ## The rate limiter

`convert_issue_to_epub` is wrapped in `@sleep_and_retry` and
`@limits(calls=MAX_CALLS_PER_MINUTE, period=ONE_MINUTE)` (source lines
207-208, constants at lines 25-26). The `ratelimit` decorator keeps
`num_calls` and `last_reset`; a call first resets the window if the period
has elapsed, then increments `num_calls`, and raises carrying the remaining
period if the count exceeds the limit; `sleep_and_retry` sleeps exactly that
long and retries. -/

/-- Source line 25. -/
def ONE_MINUTE : Int := 60

/-- Source line 26. -/
def MAX_CALLS_PER_MINUTE : Nat := 1

/-- The mutable state of the `ratelimit` decorator. -/
structure LimiterState where
  numCalls : Nat
  lastReset : Int
deriving DecidableEq

/-- One pass through the `limits` wrapper body at clock time `now`: either the
wrapped function runs (`ok`) or a `RateLimitException` carrying the remaining
period is raised; either way the state is updated. -/
def callAttempt (st : LimiterState) (now : Int) : Except Int Unit × LimiterState :=
  let pr := ONE_MINUTE - (now - st.lastReset)
  let st1 := if pr ≤ 0 then LimiterState.mk 0 now else st
  let st2 := LimiterState.mk (st1.numCalls + 1) st1.lastReset
  if st2.numCalls > MAX_CALLS_PER_MINUTE then (Except.error pr, st2)
  else (Except.ok (), st2)

/-- The `sleep_and_retry` loop with fuel: on a `RateLimitException` it sleeps
for the carried remaining period and retries. Returns the execution time of
the wrapped call and the state after it, or `none` if the fuel runs out. -/
def sleepAndRetry : Nat → LimiterState → Int → Option (Int × LimiterState)
  | 0, _, _ => none
  | fuel + 1, st, now =>
    match callAttempt st now with
    | (Except.ok _, st1) => some (now, st1)
    | (Except.error pr, st1) => sleepAndRetry fuel st1 (now + pr)

/-! ## `main` (source lines 229-350)

The observable effects are recorded as a trace of actions. The login POST
target is the literal URL that appears at source line 336. -/

/-- The URL literal the login POST is sent to (source line 336). -/
def lwnLoginUrl : Str := s2l "https://lwn.net/Login/"

/-- The outward-facing actions `main` can perform. -/
inductive PyAction where
  | loginPost (url : Str)
  | fetchCurrent
  | fetchArchive
  | convert (dest issue : Str)
deriving DecidableEq

/-- How the process ends: an explicit exit code (via `return`/`sys.exit`), or
an uncaught exception (which makes the interpreter exit non-zero). -/
inductive MainResult where
  | exit (code : Nat)
  | raised (e : PyError)
deriving DecidableEq

/-- The environment `main` runs against. -/
structure World where
  parseDate : Str → Option PyDate
  loginStatus : Nat
  currentPage : CurPage
  archiveLinks : List ALink
  files : List Str
  convertResult : Str → Str → Except PyError Unit

/-- Python truthiness of an optional string: `None` and `''` are falsy. -/
def pyTruthy : Option Str → Bool
  | none => false
  | some s => !s.isEmpty

/-- The guard `all((args.login_url, args.username, args.password))`
(source line 331). -/
def loginGateB (cfg : Config) : Bool :=
  pyTruthy cfg.loginUrl && pyTruthy cfg.username && pyTruthy cfg.password

/-- The conversion loop of source lines 347-349: each missing entry triggers
one `convert_issue_to_epub` call; a raising call aborts the loop. -/
def convertLoop (w : World) : List (Str × Str) → Except PyError Unit × List PyAction
  | [] => (Except.ok (), [])
  | (dest, issue) :: rest =>
    match w.convertResult dest issue with
    | Except.error e => (Except.error e, [PyAction.convert dest issue])
    | Except.ok _ =>
      let r := convertLoop w rest
      (r.1, PyAction.convert dest issue :: r.2)

/-- The tail of `main` after the optional login/current-page block: fetch the
archive page, build the inventory, diff, and convert each missing issue. -/
def mainDiscoverRest (cfg : Config) (w : World) (most : List (Str × Str))
    (tr : List PyAction) : MainResult × List PyAction :=
  match get_archive_epub_id_maps w.parseDate cfg w.archiveLinks with
  | Except.error e => (MainResult.raised e, tr ++ [PyAction.fetchArchive])
  | Except.ok arch =>
    let merged := dictUpdate most arch
    let conv := get_converted_epubs cfg w.files
    let missing := missing_epub_id_maps merged conv
    let r := convertLoop w missing
    match r.1 with
    | Except.error e => (MainResult.raised e, tr ++ PyAction.fetchArchive :: r.2)
    | Except.ok _ => (MainResult.exit 0, tr ++ PyAction.fetchArchive :: r.2)

/-- `main` (source lines 329-350): when login URL, username and password are
all truthy, POST the login form (to the hardcoded URL of line 336), exit 1
unless the response status is 200, and scrape the current page; then always
scrape the archive page, diff, and convert. -/
def mainRun (cfg : Config) (w : World) : MainResult × List PyAction :=
  if loginGateB cfg then
    if w.loginStatus ≠ 200 then (MainResult.exit 1, [PyAction.loginPost lwnLoginUrl])
    else
      match get_current_epub_id_maps w.parseDate cfg w.currentPage with
      | Except.error e =>
        (MainResult.raised e, [PyAction.loginPost lwnLoginUrl, PyAction.fetchCurrent])
      | Except.ok cur =>
        mainDiscoverRest cfg w (dictUpdate [] cur)
          [PyAction.loginPost lwnLoginUrl, PyAction.fetchCurrent]
  else mainDiscoverRest cfg w [] []

/-- The merged discovered mapping `main` computes when discovery succeeds
(empty parts standing in for failed or skipped fetches). -/
def discoveredOrEmpty (cfg : Config) (w : World) : List (Str × Str) :=
  let cur := if loginGateB cfg then
      (get_current_epub_id_maps w.parseDate cfg w.currentPage).toOption.getD []
    else []
  dictUpdate (dictUpdate [] cur)
    ((get_archive_epub_id_maps w.parseDate cfg w.archiveLinks).toOption.getD [])

/-- A run completes normally: the login (when attempted) returns 200 and the
current page parses, the archive page parses, and every conversion of a
missing issue succeeds. -/
def runSucceeds (cfg : Config) (w : World) : Prop :=
  (loginGateB cfg = true →
    w.loginStatus = 200 ∧
    ∃ c, get_current_epub_id_maps w.parseDate cfg w.currentPage = Except.ok c) ∧
  (∃ a, get_archive_epub_id_maps w.parseDate cfg w.archiveLinks = Except.ok a) ∧
  (∀ kv ∈ missing_epub_id_maps (discoveredOrEmpty cfg w)
      (get_converted_epubs cfg w.files),
    w.convertResult kv.1 kv.2 = Except.ok ())

/-- The process exit is non-zero: an explicit non-zero code, or an uncaught
exception. -/
def mainExitsNonzero : MainResult → Prop
  | MainResult.exit c => c ≠ 0
  | MainResult.raised _ => True

/-- Number of conversion calls recorded in a trace. -/
def countConverts (tr : List PyAction) : Nat :=
  (tr.filter (fun a => match a with | PyAction.convert _ _ => true | _ => false)).length

/-! ## Dictionary lemmas -/

/-- The keys of an ordered dict, in order. -/
def keysOf (d : List (Str × Str)) : List Str := d.map Prod.fst

theorem dictLookup_insert (k v k' : Str) (d : List (Str × Str)) :
    dictLookup k' (dictInsert k v d) = if k' = k then some v else dictLookup k' d := by
  induction d with
  | nil =>
    simp only [dictInsert, dictLookup]
    by_cases h : k = k'
    · subst h; simp
    · rw [if_neg h, if_neg (fun hh => h hh.symm)]
  | cons kv rest ih =>
    simp only [dictInsert]
    by_cases h : kv.1 = k
    · rw [if_pos h]
      by_cases h2 : k' = k
      · subst h2; simp [dictLookup]
      · have h3 : ¬(k = k') := fun hh => h2 hh.symm
        have h4 : ¬(kv.1 = k') := fun hh => h2 (h.symm.trans hh).symm
        simp only [dictLookup]
        rw [if_neg h3, if_neg h2, if_neg h4]
    · rw [if_neg h]
      show (if kv.1 = k' then some kv.2 else dictLookup k' (dictInsert k v rest)) = _
      rw [ih]
      by_cases h2 : kv.1 = k'
      · have hne : ¬(k' = k) := fun hh => h (h2.trans hh)
        rw [if_pos h2, if_neg hne]
        simp only [dictLookup]
        rw [if_pos h2]
      · rw [if_neg h2]
        by_cases h3 : k' = k
        · rw [if_pos h3, if_pos h3]
        · rw [if_neg h3, if_neg h3]
          simp only [dictLookup]
          rw [if_neg h2]

theorem dictLookup_append (k : Str) (l1 l2 : List (Str × Str)) :
    dictLookup k (l1 ++ l2) =
      match dictLookup k l1 with
      | some v => some v
      | none => dictLookup k l2 := by
  induction l1 with
  | nil => simp [dictLookup]
  | cons kv rest ih =>
    by_cases h : kv.1 = k <;> simp [dictLookup, h, ih]

theorem dictLookup_update (k : Str) (e d : List (Str × Str)) :
    dictLookup k (dictUpdate d e) =
      match revFind k e with
      | some v => some v
      | none => dictLookup k d := by
  induction e generalizing d with
  | nil => simp [dictUpdate, revFind, dictLookup]
  | cons kv rest ih =>
    have step : dictUpdate d (kv :: rest) = dictUpdate (dictInsert kv.1 kv.2 d) rest := rfl
    rw [step, ih]
    unfold revFind
    rw [List.reverse_cons, dictLookup_append]
    cases hl : dictLookup k rest.reverse with
    | some v => rfl
    | none =>
      rw [dictLookup_insert]
      by_cases h : kv.1 = k
      · simp [dictLookup, h]
      · have h2 : ¬(k = kv.1) := fun hh => h hh.symm
        simp [dictLookup, h, h2]

theorem dictLookup_eq_none_iff (k : Str) (l : List (Str × Str)) :
    dictLookup k l = none ↔ k ∉ keysOf l := by
  induction l with
  | nil => simp [dictLookup, keysOf]
  | cons kv rest ih =>
    simp only [dictLookup, keysOf, List.map_cons, List.mem_cons]
    by_cases h : kv.1 = k
    · simp [h]
    · rw [if_neg h, ih]
      simp only [keysOf]
      constructor
      · intro hn hor
        rcases hor with h1 | h1
        · exact h h1.symm
        · exact hn h1
      · intro hn h1
        exact hn (Or.inr h1)

theorem mem_keysOf_insert (k v a : Str) (d : List (Str × Str)) :
    a ∈ keysOf (dictInsert k v d) ↔ a = k ∨ a ∈ keysOf d := by
  induction d with
  | nil => simp [dictInsert, keysOf]
  | cons kv rest ih =>
    by_cases h : kv.1 = k
    · simp only [dictInsert, if_pos h, keysOf, List.map_cons, List.mem_cons]
      rw [h]
      tauto
    · simp only [dictInsert, if_neg h, keysOf, List.map_cons, List.mem_cons]
      simp only [keysOf] at ih
      rw [ih]
      tauto

theorem nodup_keysOf_insert (k v : Str) (d : List (Str × Str))
    (h : (keysOf d).Nodup) : (keysOf (dictInsert k v d)).Nodup := by
  induction d with
  | nil => simp [dictInsert, keysOf]
  | cons kv rest ih =>
    simp only [keysOf, List.map_cons, List.nodup_cons] at h
    by_cases hk : kv.1 = k
    · simp only [dictInsert, if_pos hk, keysOf, List.map_cons, List.nodup_cons]
      refine ⟨?_, h.2⟩
      rw [← hk]
      exact h.1
    · simp only [dictInsert, if_neg hk, keysOf, List.map_cons, List.nodup_cons]
      refine ⟨?_, ih h.2⟩
      intro hmem
      rcases (mem_keysOf_insert k v kv.1 rest).mp (by simpa [keysOf] using hmem) with h1 | h1
      · exact hk h1
      · exact h.1 (by simpa [keysOf] using h1)

theorem nodup_keysOf_update (e d : List (Str × Str))
    (h : (keysOf d).Nodup) : (keysOf (dictUpdate d e)).Nodup := by
  induction e generalizing d with
  | nil => exact h
  | cons kv rest ih => exact ih _ (nodup_keysOf_insert kv.1 kv.2 d h)

theorem revFind_eq_lookup_of_nodup (k : Str) (d : List (Str × Str))
    (h : (keysOf d).Nodup) : revFind k d = dictLookup k d := by
  induction d with
  | nil => rfl
  | cons kv rest ih =>
    simp only [keysOf, List.map_cons, List.nodup_cons] at h
    unfold revFind
    rw [List.reverse_cons, dictLookup_append]
    by_cases hk : kv.1 = k
    · have hnone : dictLookup k rest.reverse = none := by
        rw [dictLookup_eq_none_iff]
        intro hmem
        have hm : k ∈ List.map Prod.fst rest := by
          simpa [keysOf, List.map_reverse] using hmem
        rw [← hk] at hm
        exact h.1 hm
      rw [hnone]
      simp [dictLookup, hk]
    · have hrw : dictLookup k rest.reverse = dictLookup k rest := by
        have := ih h.2
        simpa [revFind] using this
      rw [hrw]
      cases hl : dictLookup k rest with
      | some v => simp [dictLookup, hk, hl]
      | none => simp [dictLookup, hk, hl]

/-! ## C1: the diff is the order-preserving restriction -/

/-- C1: for every discovered mapping and every inventory of existing paths,
the missing-issue mapping of `main` equals the discovered mapping restricted
to keys not in the inventory, in discovery order; in particular it never
contains a path present in the inventory scan. -/
theorem c1_diff_is_ordered_restriction (m : List (Str × Str)) (inv : List Str) :
    missing_epub_id_maps m inv = specOrderedRestriction m inv ∧
    ∀ kv, kv ∈ missing_epub_id_maps m inv → kv.1 ∉ inv := by
  constructor
  · induction m with
    | nil => rfl
    | cons kv rest ih =>
      simp only [missing_epub_id_maps, specOrderedRestriction, List.filter_cons] at ih ⊢
      simp only [decide_not] at ih
      by_cases h : kv.1 ∈ inv <;> simp [h, ih]
  · intro kv hmem
    have := List.of_mem_filter hmem
    simpa using this

/-- Witness for C1 at a concrete mapping and inventory. -/
theorem c1_diff_is_ordered_restriction_witness :
    (s2l "/b/a.epub", s2l "1").1 ∉ [s2l "/b/c.epub"] :=
  (c1_diff_is_ordered_restriction [(s2l "/b/a.epub", s2l "1")] [s2l "/b/c.epub"]).2
    (s2l "/b/a.epub", s2l "1") (by decide)

/-! ## C4: the rate limiter -/

theorem sleepAndRetry_succ (fuel : Nat) (st : LimiterState) (now : Int) :
    sleepAndRetry (fuel + 1) st now =
      match callAttempt st now with
      | (Except.ok _, st1) => some (now, st1)
      | (Except.error pr, st1) => sleepAndRetry fuel st1 (now + pr) := rfl

theorem callAttempt_in_window (st : LimiterState) (now : Int)
    (h0 : st.numCalls = 1) (h1 : st.lastReset ≤ now) (h2 : now < st.lastReset + 60) :
    callAttempt st now =
      (Except.error (60 - (now - st.lastReset)), LimiterState.mk 2 st.lastReset) := by
  unfold callAttempt ONE_MINUTE MAX_CALLS_PER_MINUTE
  have hpr : ¬(60 - (now - st.lastReset) ≤ 0) := by omega
  simp [hpr, h0]

theorem callAttempt_elapsed (st : LimiterState) (now : Int)
    (h : st.lastReset + 60 ≤ now) :
    callAttempt st now = (Except.ok (), LimiterState.mk 1 now) := by
  unfold callAttempt ONE_MINUTE MAX_CALLS_PER_MINUTE
  have hpr : 60 - (now - st.lastReset) ≤ 0 := by omega
  simp [hpr]

/-- C4 counterexample: the limiter window is anchored at `last_reset`, not at
the previous execution. Starting from the decorator's initial state (created
at time 0), a first call at time 30 runs immediately; a second call at time
70 — only 40 seconds after the previous one — also runs immediately instead
of sleeping until 60 seconds have passed since the previous call. -/
theorem c4_call_within_sixty_seconds_of_previous_runs_immediately :
    sleepAndRetry 2 (LimiterState.mk 0 0) 30 = some (30, LimiterState.mk 1 0) ∧
    sleepAndRetry 2 (LimiterState.mk 1 0) 70 = some (70, LimiterState.mk 1 70) ∧
    (70 : Int) - 30 < 60 := by
  refine ⟨?_, ?_, by decide⟩ <;> decide

/-- C4 (amended): `convert_issue_to_epub` executes at most once per limiter
window (60 seconds from the limiter's `last_reset`): a call arriving while
the current window already holds a recorded call sleeps exactly until the
window elapses and then executes at the window boundary — it neither runs
immediately nor fails; a call arriving after the window has elapsed resets
the window and runs immediately, even when it is within 60 seconds of the
previous execution time. -/
theorem c4_limiter_window_sleep_and_retry (r now : Int)
    (h1 : r ≤ now) (h2 : now < r + 60) :
    sleepAndRetry 2 (LimiterState.mk 1 r) now =
      some (r + 60, LimiterState.mk 1 (r + 60)) ∧
    (∀ t : Int, r + 60 ≤ t →
      sleepAndRetry 2 (LimiterState.mk 1 r) t = some (t, LimiterState.mk 1 t)) := by
  constructor
  · rw [show (2 : Nat) = 1 + 1 from rfl, sleepAndRetry_succ,
      callAttempt_in_window (LimiterState.mk 1 r) now rfl h1 h2]
    show sleepAndRetry 1 (LimiterState.mk 2 r) (now + (60 - (now - r))) = _
    rw [show now + (60 - (now - r)) = r + 60 by ring]
    rw [show (1 : Nat) = 0 + 1 from rfl, sleepAndRetry_succ,
      callAttempt_elapsed (LimiterState.mk 2 r) (r + 60) (by simp)]
  · intro t ht
    rw [show (2 : Nat) = 1 + 1 from rfl, sleepAndRetry_succ,
      callAttempt_elapsed (LimiterState.mk 1 r) t (by simpa using ht)]

/-- Witness for C4 (amended) at a concrete window and call time. -/
theorem c4_limiter_window_sleep_and_retry_witness :
    sleepAndRetry 2 (LimiterState.mk 1 0) 10 =
      some (60, LimiterState.mk 1 60) :=
  (c4_limiter_window_sleep_and_retry 0 10 (by decide) (by decide)).1

/-! ## C2: path computation is deterministic and injective up to the week key -/

theorem strftime_yW_length (d : PyDate) : (strftime_yW d).length = 4 := rfl

theorem renderTemplate_length (w1 w2 : Str) (hlen : w1.length = w2.length) :
    ∀ t : List Seg, (renderTemplate w1 t).length = (renderTemplate w2 t).length := by
  intro t
  induction t with
  | nil => rfl
  | cons sg rest ih =>
    cases sg with
    | lit l => simp [renderTemplate, ih]
    | weekno => simp [renderTemplate, ih, hlen]

theorem renderTemplate_inj (w1 w2 : Str) (hlen : w1.length = w2.length) :
    ∀ t : List Seg, Seg.weekno ∈ t →
      renderTemplate w1 t = renderTemplate w2 t → w1 = w2 := by
  intro t
  induction t with
  | nil => intro h; simp at h
  | cons sg rest ih =>
    intro hmem heq
    cases sg with
    | lit l =>
      have hmem2 : Seg.weekno ∈ rest := by
        rcases List.mem_cons.mp hmem with h | h
        · exact absurd h (by simp)
        · exact h
      exact ih hmem2 (List.append_cancel_left heq)
    | weekno => exact (List.append_inj heq hlen).1

theorem osPathJoin_inj (a b1 b2 : Str) (hlen : b1.length = b2.length)
    (h : osPathJoin a b1 = osPathJoin a b2) : b1 = b2 := by
  unfold osPathJoin at h
  by_cases h1 : b1.head? = some '/' <;> by_cases h2 : b2.head? = some '/'
  · rwa [if_pos h1, if_pos h2] at h
  · rw [if_pos h1, if_neg h2] at h
    by_cases ha : a = [] ∨ a.getLast? = some '/'
    · rw [if_pos ha] at h
      have hl := congrArg List.length h
      simp at hl
      have ha0 : a = [] := List.length_eq_zero.mp (by omega)
      rw [ha0] at h
      simpa using h
    · rw [if_neg ha] at h
      have hl := congrArg List.length h
      simp at hl
      omega
  · rw [if_neg h1, if_pos h2] at h
    by_cases ha : a = [] ∨ a.getLast? = some '/'
    · rw [if_pos ha] at h
      have hl := congrArg List.length h
      simp at hl
      have ha0 : a = [] := List.length_eq_zero.mp (by omega)
      rw [ha0] at h
      simpa using h
    · rw [if_neg ha] at h
      have hl := congrArg List.length h
      simp at hl
      omega
  · rw [if_neg h1, if_neg h2] at h
    by_cases ha : a = [] ∨ a.getLast? = some '/'
    · rw [if_pos ha, if_pos ha] at h
      exact List.append_cancel_left h
    · rw [if_neg ha, if_neg ha] at h
      have := List.append_cancel_left h
      simpa using this

/-- C2: with fixed directory and file-format arguments (the format containing
the week-number field, as the spec defines it), `to_epub_file_path` is a
deterministic function of the publication date, and any two valid dates
mapped to the same path have the same `%y%W` year-week key (the archive
file's disambiguating key per the spec glossary). -/
theorem c2_path_deterministic_and_weekly_injective (cfg : Config)
    (hw : Seg.weekno ∈ cfg.epubFileFormat) :
    (∀ d : PyDate, to_epub_file_path cfg d = to_epub_file_path cfg d) ∧
    (∀ d1 d2 : PyDate, ValidDate d1 → ValidDate d2 →
      to_epub_file_path cfg d1 = to_epub_file_path cfg d2 →
      strftime_yW d1 = strftime_yW d2) := by
  refine ⟨fun d => rfl, fun d1 d2 _ _ heq => ?_⟩
  have hlen : (strftime_yW d1).length = (strftime_yW d2).length := rfl
  have hrl := renderTemplate_length _ _ hlen cfg.epubFileFormat
  have hre := osPathJoin_inj _ _ _ hrl heq
  exact renderTemplate_inj _ _ hlen _ hw hre

/-- Witness for C2: two distinct valid dates in the same week map to the same
path, and the theorem yields equality of their week keys. -/
theorem c2_path_deterministic_and_weekly_injective_witness :
    strftime_yW (PyDate.mk 2024 7 2) = strftime_yW (PyDate.mk 2024 7 3) :=
  (c2_path_deterministic_and_weekly_injective
      (Config.mk none none none (s2l "/b") defaultEpubFileFormat)
      (by decide)).2
    (PyDate.mk 2024 7 2) (PyDate.mk 2024 7 3)
    (by decide) (by decide) (by decide)

/-! ## C6: every computed path matches the inventory glob pattern -/

theorem globMatch_lit_cons (c : Char) (hc2 : ¬(c = '?'))
    (hc3 : ¬(c = '[')) (p s : Str) :
    globMatch (c :: p) (c :: s) = globMatch p s := by
  show (if c = '?' then globMatch p s
    else if c = '[' then
      match parseClass p with
      | some (cls, rest) => classMatch cls c && globMatch rest s
      | none => decide (c = c) && globMatch p s
    else decide (c = c) && globMatch p s) = globMatch p s
  rw [if_neg hc2, if_neg hc3]
  simp

theorem globMatch_noMeta_front (pfx : Str) (hp : noMetaB pfx = true) (p s : Str) :
    globMatch (pfx ++ p) (pfx ++ s) = globMatch p s := by
  induction pfx with
  | nil => rfl
  | cons c rest ih =>
    simp only [noMetaB, List.all_cons, Bool.and_eq_true] at hp
    have hc : ¬(c = '*') ∧ ¬(c = '?') ∧ ¬(c = '[') := by
      have := hp.1
      simp only [Bool.not_eq_true', Bool.or_eq_false_iff,
        decide_eq_false_iff_not] at this
      exact ⟨this.1.1, this.1.2, this.2⟩
    rw [List.cons_append, List.cons_append,
      globMatch_lit_cons c hc.2.1 hc.2.2]
    exact ih hp.2

theorem classMatch_digit (n : Nat) :
    classMatch ['0', '-', '9'] (decimalDigit n) = true := by
  have h : ∀ m, m < 10 → classMatch ['0', '-', '9'] (Char.ofNat (48 + m)) = true := by
    decide
  exact h (n % 10) (Nat.mod_lt _ (by norm_num))

theorem globMatch_digitClass_cons (n : Nat) (p s : Str) :
    globMatch ('[' :: '0' :: '-' :: '9' :: ']' :: p) (decimalDigit n :: s) =
      globMatch p s := by
  show (if ('[' : Char) = '?' then globMatch ('0' :: '-' :: '9' :: ']' :: p) s
    else if ('[' : Char) = '[' then
      match parseClass ('0' :: '-' :: '9' :: ']' :: p) with
      | some (cls, rest) => classMatch cls (decimalDigit n) && globMatch rest s
      | none => decide (('[' : Char) = decimalDigit n) &&
          globMatch ('0' :: '-' :: '9' :: ']' :: p) s
    else decide (('[' : Char) = decimalDigit n) &&
      globMatch ('0' :: '-' :: '9' :: ']' :: p) s) = globMatch p s
  rw [if_neg (by decide), if_pos rfl]
  have hcls : parseClass ('0' :: '-' :: '9' :: ']' :: p) = some (['0', '-', '9'], p) := by
    simp [parseClass]
  rw [hcls]
  simp [classMatch_digit n]

theorem globMatch_weekCls (d : PyDate) (p s : Str) :
    globMatch (s2l "[0-9][0-9][0-9][0-9]" ++ p) (strftime_yW d ++ s) =
      globMatch p s := by
  show globMatch
      ('[' :: '0' :: '-' :: '9' :: ']' :: '[' :: '0' :: '-' :: '9' :: ']' ::
       '[' :: '0' :: '-' :: '9' :: ']' :: '[' :: '0' :: '-' :: '9' :: ']' :: p)
      (decimalDigit (d.year % 100 / 10) :: decimalDigit (d.year % 100) ::
       decimalDigit (weekW d / 10) :: decimalDigit (weekW d) :: s) = globMatch p s
  rw [globMatch_digitClass_cons, globMatch_digitClass_cons,
    globMatch_digitClass_cons, globMatch_digitClass_cons]

theorem globMatch_renderTemplate (d : PyDate) :
    ∀ t : List Seg, (∀ l, Seg.lit l ∈ t → noMetaB l = true) →
      globMatch (renderTemplate (s2l "[0-9][0-9][0-9][0-9]") t)
        (renderTemplate (strftime_yW d) t) = true := by
  intro t
  induction t with
  | nil => intro _; rfl
  | cons sg rest ih =>
    intro hl
    cases sg with
    | lit l =>
      have h1 : noMetaB l = true := hl l (by simp)
      simp only [renderTemplate]
      rw [globMatch_noMeta_front l h1]
      exact ih (fun l2 hm => hl l2 (by simp [hm]))
    | weekno =>
      simp only [renderTemplate]
      rw [globMatch_weekCls]
      exact ih (fun l2 hm => hl l2 (by simp [hm]))

theorem decimalDigit_ne_slash (n : Nat) : decimalDigit n ≠ '/' := by
  have h : ∀ m, m < 10 → Char.ofNat (48 + m) ≠ '/' := by decide
  exact h (n % 10) (Nat.mod_lt _ (by norm_num))

theorem renderTemplate_head_slash (c1 c2 : Char) (w1 w2 : Str)
    (hw1 : w1.head? = some c1) (hw2 : w2.head? = some c2)
    (h1 : ¬(c1 = '/')) (h2 : ¬(c2 = '/')) :
    ∀ t : List Seg,
      ((renderTemplate w1 t).head? = some '/') ↔
      ((renderTemplate w2 t).head? = some '/') := by
  intro t
  induction t with
  | nil => simp [renderTemplate]
  | cons sg rest ih =>
    cases sg with
    | lit l =>
      cases l with
      | nil => simpa [renderTemplate] using ih
      | cons c cs => simp [renderTemplate]
    | weekno =>
      cases w1 with
      | nil => simp at hw1
      | cons a as =>
        cases w2 with
        | nil => simp at hw2
        | cons b bs =>
          simp only [List.head?_cons, Option.some.injEq] at hw1 hw2
          subst hw1; subst hw2
          simp [renderTemplate, h1, h2]

/-- C6: the inventory glob pattern is derived from the same path template as
path computation: for every valid date, the path `to_epub_file_path` returns
matches the pattern `get_converted_epubs` globs for (the `[0-9]` class
repeated four times covers every character `strftime('%y%W')` can produce),
provided the directory and the template literals contain no glob
metacharacters. Consequently such a path present on disk is always part of
the inventory scan result. -/
theorem c6_path_matches_inventory_glob (cfg : Config) (d : PyDate)
    (files : List Str) (_hv : ValidDate d)
    (hdir : noMetaB cfg.epubDirectory = true)
    (hlits : ∀ l, Seg.lit l ∈ cfg.epubFileFormat → noMetaB l = true) :
    globMatch (convertedGlobPattern cfg) (to_epub_file_path cfg d) = true ∧
    (to_epub_file_path cfg d ∈ files →
      to_epub_file_path cfg d ∈ get_converted_epubs cfg files) := by
  have core : globMatch (convertedGlobPattern cfg) (to_epub_file_path cfg d) = true := by
    unfold convertedGlobPattern to_epub_file_path osPathJoin
    have hhead :
        ((renderTemplate (s2l "[0-9][0-9][0-9][0-9]") cfg.epubFileFormat).head? =
          some '/') ↔
        ((renderTemplate (strftime_yW d) cfg.epubFileFormat).head? = some '/') :=
      renderTemplate_head_slash '[' (decimalDigit (d.year % 100 / 10))
        (s2l "[0-9][0-9][0-9][0-9]") (strftime_yW d) rfl rfl (by decide)
        (decimalDigit_ne_slash _) cfg.epubFileFormat
    by_cases hp : (renderTemplate (s2l "[0-9][0-9][0-9][0-9]") cfg.epubFileFormat).head? =
        some '/'
    · have hs := hhead.mp hp
      rw [if_pos hp, if_pos hs]
      exact globMatch_renderTemplate d cfg.epubFileFormat hlits
    · have hs : ¬((renderTemplate (strftime_yW d) cfg.epubFileFormat).head? =
          some '/') := fun hh => hp (hhead.mpr hh)
      rw [if_neg hp, if_neg hs]
      by_cases ha : cfg.epubDirectory = [] ∨ cfg.epubDirectory.getLast? = some '/'
      · rw [if_pos ha, if_pos ha, globMatch_noMeta_front _ hdir]
        exact globMatch_renderTemplate d cfg.epubFileFormat hlits
      · rw [if_neg ha, if_neg ha]
        have hm : noMetaB (cfg.epubDirectory ++ ['/']) = true := by
          simp only [noMetaB, List.all_append, Bool.and_eq_true]
          exact ⟨hdir, by decide⟩
        rw [show cfg.epubDirectory ++ '/' ::
              renderTemplate (s2l "[0-9][0-9][0-9][0-9]") cfg.epubFileFormat =
            (cfg.epubDirectory ++ ['/']) ++
              renderTemplate (s2l "[0-9][0-9][0-9][0-9]") cfg.epubFileFormat by simp,
          show cfg.epubDirectory ++ '/' ::
              renderTemplate (strftime_yW d) cfg.epubFileFormat =
            (cfg.epubDirectory ++ ['/']) ++
              renderTemplate (strftime_yW d) cfg.epubFileFormat by simp]
        rw [globMatch_noMeta_front _ hm]
        exact globMatch_renderTemplate d cfg.epubFileFormat hlits
  refine ⟨core, fun hmem => ?_⟩
  unfold get_converted_epubs
  exact List.mem_filter.mpr ⟨hmem, core⟩

/-- Witness for C6 at the default template, a concrete directory, date and
file list. -/
theorem c6_path_matches_inventory_glob_witness :
    globMatch
      (convertedGlobPattern (Config.mk none none none (s2l "/b") defaultEpubFileFormat))
      (to_epub_file_path (Config.mk none none none (s2l "/b") defaultEpubFileFormat)
        (PyDate.mk 2024 7 2)) = true :=
  (c6_path_matches_inventory_glob
      (Config.mk none none none (s2l "/b") defaultEpubFileFormat)
      (PyDate.mk 2024 7 2) [] (by decide) (by decide)
      (by
        intro l hm
        simp only [defaultEpubFileFormat, List.mem_cons, List.not_mem_nil,
          or_false] at hm
        rcases hm with h | h | h
        · injection h with h2
          subst h2
          decide
        · exact absurd h (by simp)
        · injection h with h2
          subst h2
          decide)).1

/-! ## C5: week-number collisions on the archive page -/

theorem archiveFold_eq_extract (pd : Str → Option PyDate) (cfg : Config) :
    ∀ (links : List ALink) (acc : List (Str × Str)),
      archiveFold pd cfg links acc =
        (extractEntries pd cfg links).map (fun es => dictUpdate acc es) := by
  intro links
  induction links with
  | nil => intro acc; rfl
  | cons a rest ih =>
    intro acc
    cases hp : processLink pd cfg a with
    | error e =>
      simp only [archiveFold, extractEntries, hp]
      rfl
    | ok o =>
      cases o with
      | none =>
        simp only [archiveFold, extractEntries, hp]
        exact ih acc
      | some kv =>
        simp only [archiveFold, extractEntries, hp]
        rw [ih]
        cases he : extractEntries pd cfg rest with
        | error e => simp [Except.map]
        | ok es => simp [Except.map]; rfl

theorem nodup_keysOf_archive (pd : Str → Option PyDate) (cfg : Config)
    (links : List ALink) (M : List (Str × Str))
    (h : get_archive_epub_id_maps pd cfg links = Except.ok M) :
    (keysOf M).Nodup := by
  rw [get_archive_epub_id_maps, archiveFold_eq_extract] at h
  cases he : extractEntries pd cfg links with
  | error e =>
    rw [he] at h
    simp [Except.map] at h
  | ok es =>
    rw [he] at h
    have h2 : dictUpdate [] es = M := by
      simpa [Except.map] using h
    rw [← h2]
    exact nodup_keysOf_update es [] (by simp [keysOf])

/-- C5: when two (or more) archive links map to the same file path, the
result of `get_archive_epub_id_maps` binds that path to the issue ID of the
later-discovered link; the earlier binding is silently overwritten and no
error is raised. The hypotheses name the extracted entry sequence in
discovery order, with the `(p, v2)` entry the last one keyed by `p`. -/
theorem c5_week_collision_later_link_wins (pd : Str → Option PyDate)
    (cfg : Config) (links : List ALink) (E0 E1 E2 : List (Str × Str))
    (p v1 v2 : Str)
    (hE : extractEntries pd cfg links =
      Except.ok (E0 ++ (p, v1) :: E1 ++ (p, v2) :: E2))
    (hafter : p ∉ keysOf E2) :
    ∃ M, get_archive_epub_id_maps pd cfg links = Except.ok M ∧
      dictLookup p M = some v2 := by
  refine ⟨dictUpdate [] (E0 ++ (p, v1) :: E1 ++ (p, v2) :: E2), ?_, ?_⟩
  · rw [get_archive_epub_id_maps, archiveFold_eq_extract pd cfg links [], hE]
    rfl
  · rw [dictLookup_update]
    have hnone : dictLookup p E2.reverse = none := by
      rw [dictLookup_eq_none_iff]
      intro hmem
      apply hafter
      simpa [keysOf, List.map_reverse] using hmem
    have hshape : (E0 ++ (p, v1) :: E1 ++ (p, v2) :: E2).reverse =
        E2.reverse ++ (p, v2) :: (E1.reverse ++ (p, v1) :: E0.reverse) := by
      simp
    have hrev : revFind p (E0 ++ (p, v1) :: E1 ++ (p, v2) :: E2) = some v2 := by
      unfold revFind
      rw [hshape, dictLookup_append, hnone]
      simp [dictLookup]
    rw [hrev]

/-- Concrete parse-date oracle for the witnesses: the two date strings the
witness pages contain. -/
def wParseDate : Str → Option PyDate := fun s =>
  if s = s2l "July 2, 2024" then some (PyDate.mk 2024 7 2)
  else if s = s2l "July 3, 2024" then some (PyDate.mk 2024 7 3)
  else none

/-- Concrete configuration for the witnesses. -/
def wCfg : Config := Config.mk none none none (s2l "/b") defaultEpubFileFormat

/-- First witness archive link (week 27 of 2024). -/
def wLink1 : ALink :=
  ALink.mk (s2l "LWN.net Weekly Edition for July 2, 2024")
    (some (s2l "/Articles/1001/"))

/-- Second witness archive link (same week 27 of 2024). -/
def wLink2 : ALink :=
  ALink.mk (s2l "LWN.net Weekly Edition for July 3, 2024")
    (some (s2l "/Articles/1002/"))

/-- Witness for C5: two links of the same week; the later issue ID wins. -/
theorem c5_week_collision_later_link_wins_witness :
    ∃ M, get_archive_epub_id_maps wParseDate wCfg [wLink1, wLink2] = Except.ok M ∧
      dictLookup (to_epub_file_path wCfg (PyDate.mk 2024 7 2)) M =
        some (s2l "1002") :=
  c5_week_collision_later_link_wins wParseDate wCfg [wLink1, wLink2]
    [] [] [] (to_epub_file_path wCfg (PyDate.mk 2024 7 2))
    (s2l "1001") (s2l "1002") (by decide) (by decide)

/-! ## C8: malformed pages abort discovery -/

/-- The current-page defects C8 names: no `<title>`, a title whose text does
not match the date regex, a date string `parse_date` rejects, or a response
URL without a `/Articles/<id>/` reference. -/
def currentPageMalformed (pd : Str → Option PyDate) (page : CurPage) : Prop :=
  page.title = none ∨
  (∃ t, page.title = some t ∧ regexForBracketGroup t = none) ∨
  (∃ t ds, page.title = some t ∧ regexForBracketGroup t = some ds ∧
    pd ds = none) ∨
  regexUrlArticlesGroup page.url = none

/-- The archive-link defects C8 names, for a link selected by the
weekly-edition filter: text without a parseable date part, a date string
`parse_date` rejects, a missing `href`, or an `href` not matching the
`/Articles/<id>/` pattern. -/
def linkMalformed (pd : Str → Option PyDate) (a : ALink) : Prop :=
  regexForGroup a.text = none ∨
  (∃ ds, regexForGroup a.text = some ds ∧ pd ds = none) ∨
  a.href = none ∨
  (∃ h, a.href = some h ∧ regexHrefArticlesGroup h = none)

theorem get_current_error_of_malformed (pd : Str → Option PyDate) (cfg : Config)
    (page : CurPage) (h : currentPageMalformed pd page) :
    ∃ e, get_current_epub_id_maps pd cfg page = Except.error e := by
  unfold get_current_epub_id_maps
  rcases h with h | ⟨t, ht, hg⟩ | ⟨t, ds, ht, hg, hp⟩ | h
  · rw [h]
    exact ⟨_, rfl⟩
  · rw [ht]
    dsimp only
    rw [hg]
    exact ⟨_, rfl⟩
  · rw [ht]
    dsimp only
    rw [hg]
    dsimp only
    rw [hp]
    exact ⟨_, rfl⟩
  · cases htitle : page.title with
    | none => exact ⟨_, rfl⟩
    | some t =>
      dsimp only
      cases hg : regexForBracketGroup t with
      | none => exact ⟨_, rfl⟩
      | some ds =>
        dsimp only
        cases hp : pd ds with
        | none => exact ⟨_, rfl⟩
        | some date =>
          dsimp only
          rw [h]
          exact ⟨_, rfl⟩

theorem processLink_error_of_malformed (pd : Str → Option PyDate) (cfg : Config)
    (a : ALink) (hc : strContains weeklyEditionNeedle a.text = true)
    (hm : linkMalformed pd a) :
    ∃ e, processLink pd cfg a = Except.error e := by
  unfold processLink
  rw [if_pos hc]
  rcases hm with h | ⟨ds, hg, hp⟩ | h | ⟨href, hh, hg⟩
  · rw [h]
    exact ⟨_, rfl⟩
  · rw [hg]
    dsimp only
    rw [hp]
    exact ⟨_, rfl⟩
  · cases hg : regexForGroup a.text with
    | none => exact ⟨_, rfl⟩
    | some ds =>
      dsimp only
      cases hp : pd ds with
      | none => exact ⟨_, rfl⟩
      | some date =>
        dsimp only
        rw [h]
        exact ⟨_, rfl⟩
  · cases hg2 : regexForGroup a.text with
    | none => exact ⟨_, rfl⟩
    | some ds =>
      dsimp only
      cases hp : pd ds with
      | none => exact ⟨_, rfl⟩
      | some date =>
        dsimp only
        rw [hh]
        dsimp only
        rw [hg]
        exact ⟨_, rfl⟩

theorem archiveFold_error_of_malformed (pd : Str → Option PyDate) (cfg : Config) :
    ∀ (links : List ALink) (acc : List (Str × Str)) (a : ALink), a ∈ links →
      strContains weeklyEditionNeedle a.text = true → linkMalformed pd a →
      ∃ e, archiveFold pd cfg links acc = Except.error e := by
  intro links
  induction links with
  | nil => intro acc a ha; exact absurd ha (List.not_mem_nil a)
  | cons l rest ih =>
    intro acc a ha hc hm
    rcases List.mem_cons.mp ha with h | h
    · subst h
      obtain ⟨e, he⟩ := processLink_error_of_malformed pd cfg a hc hm
      refine ⟨e, ?_⟩
      simp only [archiveFold, he]
    · cases hp : processLink pd cfg l with
      | error e =>
        refine ⟨e, ?_⟩
        simp only [archiveFold, hp]
      | ok o =>
        cases o with
        | none =>
          obtain ⟨e, he⟩ := ih acc a h hc hm
          refine ⟨e, ?_⟩
          simp only [archiveFold, hp]
          exact he
        | some kv =>
          obtain ⟨e, he⟩ := ih (dictInsert kv.1 kv.2 acc) a h hc hm
          refine ⟨e, ?_⟩
          simp only [archiveFold, hp]
          exact he

/-- C8: a fetched page whose title or link text has no parseable date, or
that lacks the expected structure (no title, missing `href`, or an issue
reference not matching the `/Articles/<id>/` pattern), makes discovery raise:
`get_current_epub_id_maps` and `get_archive_epub_id_maps` return an error and
no partial mapping. -/
theorem c8_malformed_page_raises (pd : Str → Option PyDate) (cfg : Config)
    (page : CurPage) (links : List ALink) (a : ALink) :
    (currentPageMalformed pd page →
      ∃ e, get_current_epub_id_maps pd cfg page = Except.error e) ∧
    (a ∈ links → strContains weeklyEditionNeedle a.text = true →
      linkMalformed pd a →
      ∃ e, get_archive_epub_id_maps pd cfg links = Except.error e) := by
  constructor
  · exact get_current_error_of_malformed pd cfg page
  · intro ha hc hm
    exact archiveFold_error_of_malformed pd cfg links [] a ha hc hm

/-- Witness archive link whose text mentions the weekly edition but holds no
space-delimited `for`, so the date regex fails. -/
def wBadLink : ALink :=
  ALink.mk (s2l "LWN.net Weekly Edition summary") (some (s2l "/Articles/1003/"))

/-- Witness current page with no `<title>` tag. -/
def wBadPage : CurPage := CurPage.mk none (s2l "https://lwn.net/Articles/1004/")

/-- Witness for C8: a titleless current page and an archive page with an
undated weekly-edition link both make discovery return an error. -/
theorem c8_malformed_page_raises_witness :
    (∃ e, get_current_epub_id_maps wParseDate wCfg wBadPage = Except.error e) ∧
    (∃ e, get_archive_epub_id_maps wParseDate wCfg [wBadLink] = Except.error e) :=
  ⟨(c8_malformed_page_raises wParseDate wCfg wBadPage [wBadLink] wBadLink).1
      (Or.inl rfl),
   (c8_malformed_page_raises wParseDate wCfg wBadPage [wBadLink] wBadLink).2
      (by decide) (by decide) (Or.inl (by decide))⟩

/-! ## `main` helper lemmas -/

theorem countConverts_append (a b : List PyAction) :
    countConverts (a ++ b) = countConverts a + countConverts b := by
  simp [countConverts, List.filter_append]

theorem convertLoop_all_convert (w : World) :
    ∀ (l : List (Str × Str)) (a : PyAction), a ∈ (convertLoop w l).2 →
      ∃ dest issue, a = PyAction.convert dest issue := by
  intro l
  induction l with
  | nil => intro a ha; exact absurd ha (List.not_mem_nil a)
  | cons kv rest ih =>
    obtain ⟨dest, issue⟩ := kv
    intro a ha
    cases hr : w.convertResult dest issue with
    | error e =>
      simp only [convertLoop, hr] at ha
      rcases List.mem_singleton.mp ha with h
      exact ⟨dest, issue, h⟩
    | ok u =>
      simp only [convertLoop, hr] at ha
      rcases List.mem_cons.mp ha with h | h
      · exact ⟨dest, issue, h⟩
      · exact ih a h

theorem convertLoop_fst_ok_iff (w : World) : ∀ l : List (Str × Str),
    (convertLoop w l).1 = Except.ok () ↔
    ∀ kv ∈ l, w.convertResult kv.1 kv.2 = Except.ok () := by
  intro l
  induction l with
  | nil => simp [convertLoop]
  | cons kv rest ih =>
    obtain ⟨dest, issue⟩ := kv
    cases hr : w.convertResult dest issue with
    | error e =>
      simp only [convertLoop, hr]
      constructor
      · intro hh; exact absurd hh (by simp)
      · intro hall
        have := hall (dest, issue) (List.mem_cons_self _ _)
        rw [hr] at this
        exact absurd this (by simp)
    | ok u =>
      cases u
      simp only [convertLoop, hr]
      rw [ih]
      constructor
      · intro hall kv2 hm
        rcases List.mem_cons.mp hm with h | h
        · rw [h]
          exact hr
        · exact hall kv2 h
      · intro hall kv2 hm
        exact hall kv2 (List.mem_cons_of_mem _ hm)

theorem missing_eq_nil_of_subset (m : List (Str × Str)) (conv : List Str)
    (h : ∀ kv ∈ m, kv.1 ∈ conv) : missing_epub_id_maps m conv = [] := by
  unfold missing_epub_id_maps
  rw [List.filter_eq_nil_iff]
  intro kv hkv
  simpa using h kv hkv

theorem mainExitsNonzero_iff (r : MainResult) :
    mainExitsNonzero r ↔ r ≠ MainResult.exit 0 := by
  cases r with
  | exit c => simp [mainExitsNonzero]
  | raised e => simp [mainExitsNonzero]

/-! ## C10: the login gate -/

/-- C10: when login URL, username and password are not all truthy, `main`
performs no login POST and never fetches the current page, and the discovered
mapping is the archive page alone; when both pages are fetched, an entry of
the archive map overrides any current-page entry for the same path. -/
theorem c10_login_gate_behaviour (cfg : Config) (w : World) :
    (loginGateB cfg = false →
      (∀ a ∈ (mainRun cfg w).2,
        (∀ u, a ≠ PyAction.loginPost u) ∧ a ≠ PyAction.fetchCurrent) ∧
      (∀ A, get_archive_epub_id_maps w.parseDate cfg w.archiveLinks = Except.ok A →
        discoveredOrEmpty cfg w = dictUpdate [] A)) ∧
    (∀ C A p v, loginGateB cfg = true →
      get_current_epub_id_maps w.parseDate cfg w.currentPage = Except.ok C →
      get_archive_epub_id_maps w.parseDate cfg w.archiveLinks = Except.ok A →
      dictLookup p A = some v →
      dictLookup p (discoveredOrEmpty cfg w) = some v) := by
  constructor
  · intro hg
    constructor
    · intro a ha
      have hg2 : ¬(loginGateB cfg = true) := by simp [hg]
      unfold mainRun at ha
      rw [if_neg hg2] at ha
      unfold mainDiscoverRest at ha
      cases harc : get_archive_epub_id_maps w.parseDate cfg w.archiveLinks with
      | error e =>
        rw [harc] at ha
        dsimp only at ha
        simp only [List.nil_append] at ha
        rcases List.mem_singleton.mp ha with h
        rw [h]
        exact ⟨fun u => by simp, by simp⟩
      | ok arch =>
        rw [harc] at ha
        dsimp only at ha
        cases hcl : (convertLoop w (missing_epub_id_maps (dictUpdate [] arch)
            (get_converted_epubs cfg w.files))).1 with
        | error e =>
          rw [hcl] at ha
          dsimp only at ha
          simp only [List.nil_append] at ha
          rcases List.mem_cons.mp ha with h | h
          · rw [h]
            exact ⟨fun u => by simp, by simp⟩
          · obtain ⟨dest, issue, hh⟩ := convertLoop_all_convert w _ a h
            rw [hh]
            exact ⟨fun u => by simp, by simp⟩
        | ok u =>
          rw [hcl] at ha
          dsimp only at ha
          simp only [List.nil_append] at ha
          rcases List.mem_cons.mp ha with h | h
          · rw [h]
            exact ⟨fun u => by simp, by simp⟩
          · obtain ⟨dest, issue, hh⟩ := convertLoop_all_convert w _ a h
            rw [hh]
            exact ⟨fun u => by simp, by simp⟩
    · intro A hA
      unfold discoveredOrEmpty
      rw [hA]
      simp only [hg, Bool.false_eq_true, if_false, Except.toOption, Option.getD_some]
      rfl
  · intro C A p v hg hc ha hl
    unfold discoveredOrEmpty
    rw [hc, ha]
    simp only [hg, if_pos, Except.toOption, Option.getD_some]
    rw [dictLookup_update]
    have hnodup := nodup_keysOf_archive w.parseDate cfg w.archiveLinks A ha
    rw [revFind_eq_lookup_of_nodup p A hnodup, hl]

/-- A world with no usable credentials and a one-link archive page, for the
witnesses. -/
def wWorld : World :=
  World.mk wParseDate 200 (CurPage.mk none (s2l "https://lwn.net/"))
    [wLink1] [] (fun _ _ => Except.ok ())

/-- Witness for C10: with no credentials, discovery is the archive page
alone. -/
theorem c10_login_gate_behaviour_witness :
    discoveredOrEmpty wCfg wWorld =
      dictUpdate [] [(to_epub_file_path wCfg (PyDate.mk 2024 7 2), s2l "1001")] :=
  ((c10_login_gate_behaviour wCfg wWorld).1 (by decide)).2
    [(to_epub_file_path wCfg (PyDate.mk 2024 7 2), s2l "1001")] (by decide)

/-! ## C3: a complete inventory means zero conversion calls -/

theorem countConverts_mainDiscoverRest_zero (cfg : Config) (w : World)
    (most : List (Str × Str)) (tr : List PyAction)
    (htr : countConverts tr = 0)
    (h : ∀ A, get_archive_epub_id_maps w.parseDate cfg w.archiveLinks = Except.ok A →
      missing_epub_id_maps (dictUpdate most A) (get_converted_epubs cfg w.files) = []) :
    countConverts (mainDiscoverRest cfg w most tr).2 = 0 := by
  unfold mainDiscoverRest
  cases ha : get_archive_epub_id_maps w.parseDate cfg w.archiveLinks with
  | error e =>
    dsimp only
    rw [countConverts_append, htr]
    rfl
  | ok arch =>
    dsimp only
    rw [h arch ha]
    dsimp only [convertLoop]
    rw [countConverts_append, htr]
    rfl

/-- C3: if the inventory already contains every path of the discovered
mapping, `main` performs zero calls to `convert_issue_to_epub`. -/
theorem c3_full_inventory_no_conversions (cfg : Config) (w : World)
    (h : ∀ kv ∈ discoveredOrEmpty cfg w, kv.1 ∈ get_converted_epubs cfg w.files) :
    countConverts (mainRun cfg w).2 = 0 := by
  unfold mainRun
  by_cases hg : loginGateB cfg = true
  · rw [if_pos hg]
    by_cases hs : w.loginStatus ≠ 200
    · rw [if_pos hs]
      rfl
    · rw [if_neg hs]
      cases hc : get_current_epub_id_maps w.parseDate cfg w.currentPage with
      | error e => rfl
      | ok cur =>
        dsimp only
        refine countConverts_mainDiscoverRest_zero cfg w _ _ rfl ?_
        intro A hA
        apply missing_eq_nil_of_subset
        have hde : discoveredOrEmpty cfg w = dictUpdate (dictUpdate [] cur) A := by
          unfold discoveredOrEmpty
          rw [hc, hA]
          simp [hg, Except.toOption]
        rw [← hde]
        exact h
  · rw [if_neg hg]
    refine countConverts_mainDiscoverRest_zero cfg w _ _ rfl ?_
    intro A hA
    apply missing_eq_nil_of_subset
    have hde : discoveredOrEmpty cfg w = dictUpdate [] A := by
      unfold discoveredOrEmpty
      rw [hA]
      have hg2 : loginGateB cfg = false := by simpa using hg
      simp only [hg2, Bool.false_eq_true, if_false, Except.toOption, Option.getD_some]
      rfl
    rw [← hde]
    exact h

/-- A world whose filesystem already holds the EPUB of the only discovered
issue. -/
def wWorldArchived : World :=
  World.mk wParseDate 200 (CurPage.mk none (s2l "https://lwn.net/"))
    [wLink1] [to_epub_file_path wCfg (PyDate.mk 2024 7 2)]
    (fun _ _ => Except.ok ())

/-- Witness for C3: one discovered issue, already on disk, zero conversion
calls in the trace. -/
theorem c3_full_inventory_no_conversions_witness :
    countConverts (mainRun wCfg wWorldArchived).2 = 0 :=
  c3_full_inventory_no_conversions wCfg wWorldArchived (by decide)

/-! ## C7: exit behaviour -/

theorem mainRun_exit_zero_iff (cfg : Config) (w : World) :
    (mainRun cfg w).1 = MainResult.exit 0 ↔ runSucceeds cfg w := by
  unfold mainRun runSucceeds
  by_cases hg : loginGateB cfg = true
  · rw [if_pos hg]
    by_cases hs : w.loginStatus ≠ 200
    · rw [if_pos hs]
      constructor
      · intro hh
        exact absurd hh (by simp)
      · intro hh
        exact absurd (hh.1 hg).1 hs
    · rw [if_neg hs]
      push_neg at hs
      cases hc : get_current_epub_id_maps w.parseDate cfg w.currentPage with
      | error e =>
        dsimp only
        constructor
        · intro hh
          exact absurd hh (by simp)
        · intro hh
          obtain ⟨c, hcok⟩ := (hh.1 hg).2
          exact absurd hcok (by simp)
      | ok cur =>
        dsimp only
        unfold mainDiscoverRest
        cases ha : get_archive_epub_id_maps w.parseDate cfg w.archiveLinks with
        | error e =>
          dsimp only
          constructor
          · intro hh
            exact absurd hh (by simp)
          · intro hh
            obtain ⟨A, hA⟩ := hh.2.1
            exact absurd hA (by simp)
        | ok arch =>
          dsimp only
          have hde : discoveredOrEmpty cfg w = dictUpdate (dictUpdate [] cur) arch := by
            unfold discoveredOrEmpty
            rw [hc, ha]
            simp [hg, Except.toOption]
          cases hcl : (convertLoop w (missing_epub_id_maps
              (dictUpdate (dictUpdate [] cur) arch)
              (get_converted_epubs cfg w.files))).1 with
          | error e =>
            dsimp only
            constructor
            · intro hh
              exact absurd hh (by simp)
            · intro hh
              have hall := hh.2.2
              rw [hde] at hall
              have hok := (convertLoop_fst_ok_iff w _).mpr hall
              rw [hcl] at hok
              exact absurd hok (by simp)
          | ok u =>
            cases u
            dsimp only
            constructor
            · intro _
              refine ⟨fun _ => ⟨hs, cur, rfl⟩, ⟨arch, rfl⟩, ?_⟩
              rw [hde]
              exact (convertLoop_fst_ok_iff w _).mp hcl
            · intro _
              rfl
  · rw [if_neg hg]
    unfold mainDiscoverRest
    cases ha : get_archive_epub_id_maps w.parseDate cfg w.archiveLinks with
    | error e =>
      dsimp only
      constructor
      · intro hh
        exact absurd hh (by simp)
      · intro hh
        obtain ⟨A, hA⟩ := hh.2.1
        exact absurd hA (by simp)
    | ok arch =>
      dsimp only
      have hg2 : loginGateB cfg = false := by simpa using hg
      have hde : discoveredOrEmpty cfg w = dictUpdate [] arch := by
        unfold discoveredOrEmpty
        rw [ha]
        simp only [hg2, Bool.false_eq_true, if_false, Except.toOption, Option.getD_some]
        rfl
      cases hcl : (convertLoop w (missing_epub_id_maps
          (dictUpdate [] arch) (get_converted_epubs cfg w.files))).1 with
      | error e =>
        dsimp only
        constructor
        · intro hh
          exact absurd hh (by simp)
        · intro hh
          have hall := hh.2.2
          rw [hde] at hall
          have hok := (convertLoop_fst_ok_iff w _).mpr hall
          rw [hcl] at hok
          exact absurd hok (by simp)
      | ok u =>
        cases u
        dsimp only
        constructor
        · intro _
          refine ⟨fun hcontr => absurd hcontr hg, ⟨arch, rfl⟩, ?_⟩
          rw [hde]
          exact (convertLoop_fst_ok_iff w _).mp hcl
        · intro _
          rfl

/-- C7: `main` exits non-zero exactly when the run fails — it exits with
code 1 when the login POST (when attempted) does not return status 200, it
raises (non-zero process exit) on any unhandled discovery or acquisition
error, and it returns 0 exactly on normal completion, which includes the case
of an empty missing set. -/
theorem c7_exit_behaviour (cfg : Config) (w : World) :
    ((mainRun cfg w).1 = MainResult.exit 0 ↔ runSucceeds cfg w) ∧
    (loginGateB cfg = true → w.loginStatus ≠ 200 →
      (mainRun cfg w).1 = MainResult.exit 1) ∧
    (mainExitsNonzero (mainRun cfg w).1 ↔ ¬ runSucceeds cfg w) := by
  refine ⟨mainRun_exit_zero_iff cfg w, ?_, ?_⟩
  · intro hg hs
    unfold mainRun
    rw [if_pos hg, if_pos hs]
  · rw [mainExitsNonzero_iff]
    exact not_congr (mainRun_exit_zero_iff cfg w)

/-- Configuration with full credentials for the login-path witnesses. -/
def wCfgCreds : Config :=
  Config.mk (some (s2l "https://lwn.net/Login/")) (some (s2l "u"))
    (some (s2l "p")) (s2l "/b") defaultEpubFileFormat

/-- A world whose login POST returns HTTP 500. -/
def wWorldBadLogin : World :=
  World.mk wParseDate 500 (CurPage.mk none (s2l "https://lwn.net/")) []
    [] (fun _ _ => Except.ok ())

/-- Witness for C7: a failed authentication POST exits with code 1. -/
theorem c7_exit_behaviour_witness :
    (mainRun wCfgCreds wWorldBadLogin).1 = MainResult.exit 1 :=
  (c7_exit_behaviour wCfgCreds wWorldBadLogin).2.1 (by decide) (by decide)

/-! ## C9: the login POST target ignores the configured login URL -/

/-- Configuration whose `--login-url` points away from `lwn.net`. -/
def c9cfg : Config :=
  Config.mk (some (s2l "https://example.org/login")) (some (s2l "u"))
    (some (s2l "p")) (s2l "/b") defaultEpubFileFormat

/-- World used to evaluate the login POST of `main` at the C9 failing
input. -/
def c9world : World :=
  World.mk wParseDate 500 (CurPage.mk none (s2l "https://lwn.net/")) []
    [] (fun _ _ => Except.ok ())

/-- C9 evaluation: whenever the login gate is taken, the POST recorded in the
trace targets the hardcoded literal of source line 336, never the configured
`--login-url`; with `--login-url=https://example.org/login` the POST still
goes to `https://lwn.net/Login/`. -/
theorem c9_login_posts_hardcoded_url :
    (∀ (cfg : Config) (w : World), loginGateB cfg = true →
      (mainRun cfg w).2.head? = some (PyAction.loginPost lwnLoginUrl)) ∧
    c9cfg.loginUrl = some (s2l "https://example.org/login") ∧
    loginGateB c9cfg = true ∧
    lwnLoginUrl ≠ s2l "https://example.org/login" ∧
    PyAction.loginPost lwnLoginUrl ∈ (mainRun c9cfg c9world).2 := by
  refine ⟨?_, rfl, by decide, by decide, by decide⟩
  intro cfg w hg
  unfold mainRun
  rw [if_pos hg]
  by_cases hs : w.loginStatus ≠ 200
  · rw [if_pos hs]
    rfl
  · rw [if_neg hs]
    cases hc : get_current_epub_id_maps w.parseDate cfg w.currentPage with
    | error e => rfl
    | ok cur =>
      dsimp only
      unfold mainDiscoverRest
      cases ha : get_archive_epub_id_maps w.parseDate cfg w.archiveLinks with
      | error e => rfl
      | ok arch =>
        dsimp only
        cases hcl : (convertLoop w (missing_epub_id_maps
            (dictUpdate (dictUpdate [] cur) arch)
            (get_converted_epubs cfg w.files))).1 with
        | error e => rfl
        | ok u => rfl

/-- Witness for C9 at the failing input. -/
theorem c9_login_posts_hardcoded_url_witness :
    (mainRun c9cfg c9world).2.head? = some (PyAction.loginPost lwnLoginUrl) :=
  c9_login_posts_hardcoded_url.1 c9cfg c9world (by decide)
